import Mathlib

/-!
# Administrative HTTP handlers of `pkg/commands/handler.go`

A shallow embedding of the request handlers of `pkg/commands/handler.go`.
Every handler is a program in a small monad `Go` that records, in order, the
calls the handler makes to its collaborators (connection discovery, the
`admin` package, `render`, `net/http`, `os/exec`) and keeps the stack of
deferred calls.  The outcomes of the collaborators are read from a `World`,
so a statement quantified over every `World` covers every outcome of the
collaborators.
-/

namespace Commands

/-! ## Go values -/

/-- A Go string: a sequence of bytes. -/
abbrev GoString := List Nat

/-- The Go string of an ASCII literal of the source. -/
def str (s : String) : GoString := s.toList.map Char.toNat

/-- A Go `error` value, identified by the text its `Error()` method returns. -/
structure GoError where
  msg : GoString
deriving DecidableEq, Repr

/-- The `*pgx.Conn` handed out by `NewProxyConnection`. -/
structure Conn where
  id : Nat
deriving DecidableEq, Repr

/-- The `*flypg.Node` built by `flypg.NewNode`. -/
structure Node where
  id : Nat
deriving DecidableEq, Repr

/-- A user or database record of the `admin` package (`UserInfo`, `DbInfo`);
its fields play no part in the handlers. -/
structure Record where
  fields : List (GoString × GoString)
deriving DecidableEq, Repr

/-- The dynamic value stored in the `Result interface{}` field of `Response`.
A slice or a pointer stored in the interface may itself be nil. -/
inductive Iface where
  | nil
  | bool (b : Bool)
  | string (s : GoString)
  | slice (xs : Option (List Record))
  | ptr (p : Option Record)
deriving DecidableEq, Repr

/-- What `encoding/json` does with a value: a nil interface, a nil slice and a
nil pointer are all encoded as JSON `null`; booleans, strings (also the empty
string), non-nil slices (also the empty one) and non-nil pointers are not. -/
def Iface.jsonNull : Iface → Bool
  | .nil => true
  | .bool _ => false
  | .string _ => false
  | .slice xs => xs.isNone
  | .ptr p => p.isNone

/-- Modelled from the spec: the declaration of `Response` is not in
`handler.go`; the spec gives the envelope as
`{result: T | null, error: string | null}`.  The handlers only ever set
`Result`, which leaves `Error` at its zero value (not populated). -/
structure Response where
  Result : Iface := Iface.nil
  Error : Option GoString := none
deriving DecidableEq, Repr

/-- The body of `POST /users/create` once decoded. -/
structure createUserRequest where
  Username : GoString := []
  Password : GoString := []
  Database : GoString := []
  Superuser : Bool := false
deriving DecidableEq, Repr

/-- The body of `POST /databases/create` once decoded. -/
structure createDatabaseRequest where
  Name : GoString := []
deriving DecidableEq, Repr

/-- The body of `POST /admin/role` once decoded. -/
structure checkRoleRequest where
  Address : GoString := []
deriving DecidableEq, Repr

/-- An inbound `*http.Request`: its body and its URL parameters. -/
structure Request where
  Body : GoString
  URLParam : GoString → GoString

/-- An `*http.Response` of the peer: its status code and what
`ioutil.ReadAll(resp.Body)` returns, the bytes read so far together with the
read error, if any. -/
structure HttpResponse where
  StatusCode : Nat
  ReadAll : GoString × Option GoError
deriving DecidableEq, Repr

/-- An `*os.ProcessState`: the value of `ExitCode()` (`-1` when the process
did not exit by itself) and the description returned by `String()`. -/
structure ProcessState where
  ExitCode : Int
  String : GoString
deriving DecidableEq, Repr

/-- How the external command went: it could not be started, or it was started
and waited for until it terminated in some state. -/
inductive ExecOutcome where
  | startFailed (err : GoError)
  | terminated (st : ProcessState)
deriving DecidableEq, Repr

/-! ## Collaborators -/

/-- The outcomes of every collaborator the handlers call. -/
structure World where
  NewNode : Except GoError Node
  NewProxyConnection : Node → Except GoError Conn
  ListDatabases : Conn → Except GoError (Option (List Record))
  ListUsers : Conn → Except GoError (Option (List Record))
  FindUser : Conn → GoString → Except GoError (Option Record)
  FindDatabase : Conn → GoString → Except GoError (Option Record)
  CreateUser : Conn → GoString → GoString → Option GoError
  GrantAccess : Conn → GoString → GoString → Option GoError
  GrantSuperuser : Conn → GoString → Option GoError
  DeleteUser : Conn → GoString → Option GoError
  CreateDatabase : Conn → GoString → Option GoError
  DeleteDatabase : Conn → GoString → Option GoError
  decodeCreateUser : GoString → Except GoError createUserRequest
  decodeCreateDatabase : GoString → Except GoError createDatabaseRequest
  /-- The pointer `in` of `handleRole` after `Decode(&in)`: the decoder is
  given the address of the pointer itself, so a body of JSON `null` sets `in`
  to nil and reports no error. -/
  decodeCheckRole : GoString → Except GoError (Option checkRoleRequest)
  /-- The result pair `(resp, err)` of `http.Get`; `resp` may be nil. -/
  httpGet : GoString → Option HttpResponse × Option GoError
  /-- The run of an external command, by name and arguments. -/
  exec : GoString → List GoString → ExecOutcome
  /-- The error built by `fmt.Errorf(format)` from a format without operands. -/
  Errorf : GoString → GoError
  /-- Whether `util.WriteError` (not in `handler.go`) returns to its caller;
  when it does not, it ends the process. -/
  writeErrorReturns : Bool

/-! ## Recorded calls -/

/-- A call made by a handler, in the order made. -/
inductive Event where
  | NewNode
  | NewProxyConnection (node : Node)
  | pgClose (pg : Conn)
  | bodyClose
  | ListDatabases (pg : Conn)
  | ListUsers (pg : Conn)
  | FindUser (pg : Conn) (name : GoString)
  | FindDatabase (pg : Conn) (name : GoString)
  | CreateUser (pg : Conn) (username password : GoString)
  | GrantAccess (pg : Conn) (username database : GoString)
  | GrantSuperuser (pg : Conn) (username : GoString)
  | DeleteUser (pg : Conn) (name : GoString)
  | CreateDatabase (pg : Conn) (name : GoString)
  | DeleteDatabase (pg : Conn) (name : GoString)
  | renderErr (err : GoError)
  | renderJSON (res : Response) (status : Nat)
  | httpGet (endpoint : GoString)
  | readAll
  | utilWriteError (err : GoError)
  | cmdRun (name : GoString) (args : List GoString)
deriving DecidableEq, Repr

/-- A call registered with `defer`. -/
inductive Deferred where
  | close (pg : Conn)
  | bodyClose
deriving DecidableEq, Repr

/-- The call a deferred function makes when it finally runs. -/
def Deferred.event : Deferred → Event
  | .close pg => Event.pgClose pg
  | .bodyClose => Event.bodyClose

/-! ## The handler monad -/

/-- The state of a running handler: the calls made so far, oldest first, and
the deferred calls, most recently registered first. -/
structure HState where
  trace : List Event := []
  deferred : List Deferred := []
deriving DecidableEq, Repr

/-- How a piece of handler code ends: normally with a value, by a run-time
panic, or with the whole process ended. -/
inductive Step (α : Type) where
  | ok (a : α) (s : HState)
  | panicked (s : HState)
  | exited (s : HState)

/-- Handler code: a state transformer that may panic or end the process. -/
def Go (α : Type) : Type := HState → Step α

/-- Sequencing of handler code. -/
def Go.bind {α β : Type} (m : Go α) (f : α → Go β) : Go β := fun s =>
  match m s with
  | .ok a s1 => f a s1
  | .panicked s1 => .panicked s1
  | .exited s1 => .exited s1

instance : Monad Go where
  pure a := fun s => .ok a s
  bind := Go.bind

/-- Record a call. -/
def emit (e : Event) : Go Unit := fun s => .ok () { s with trace := s.trace ++ [e] }

/-- The statement `defer d`. -/
def defer (d : Deferred) : Go Unit := fun s => .ok () { s with deferred := d :: s.deferred }

/-- A nil-pointer dereference. -/
def nilDeref {α : Type} : Go α := fun s => .panicked s

/-- The end of the process (`os.Exit`). -/
def osExit {α : Type} : Go α := fun s => .exited s

/-- How the serving of one request ended. -/
inductive Exit where
  | returned
  | panicked
  | exited
deriving DecidableEq, Repr

/-- Serve one request with handler `h`: run its body, then, when it returns or
panics, run the deferred calls, last registered first.  The result is the
complete list of calls and the way the handler ended. -/
def serve (h : Go Unit) : List Event × Exit :=
  match h {} with
  | .ok _ s => (s.trace ++ s.deferred.map Deferred.event, Exit.returned)
  | .panicked s => (s.trace ++ s.deferred.map Deferred.event, Exit.panicked)
  | .exited s => (s.trace, Exit.exited)

/-! ## `render` -/

/-- The call `render.Err(w, err)`. -/
def renderErr (err : GoError) : Go Unit := emit (Event.renderErr err)

/-- The call `render.JSON(w, res, status)`. -/
def renderJSON (res : Response) (status : Nat) : Go Unit := emit (Event.renderJSON res status)

/-- The constant `http.StatusOK`. -/
def StatusOK : Nat := 200

/-! ## `getConnection` and the database-backed handlers -/

/-- The function `getConnection`: a node from `flypg.NewNode`, then one proxy
connection from it; `close` closes that connection. -/
def getConnection (w : World) : Go (Except GoError (Conn × Deferred)) := do
  emit Event.NewNode
  match w.NewNode with
  | .error err => return .error err
  | .ok node =>
    emit (Event.NewProxyConnection node)
    match w.NewProxyConnection node with
    | .error err => return .error err
    | .ok pg =>
      let close := Deferred.close pg
      return .ok (pg, close)

/-- The handler `handleListDatabases`. -/
def handleListDatabases (w : World) (_r : Request) : Go Unit := do
  match ← getConnection w with
  | .error err =>
    renderErr err
    return
  | .ok (pg, close) =>
    defer close
    emit (Event.ListDatabases pg)
    match w.ListDatabases pg with
    | .error err =>
      renderErr err
      return
    | .ok dbs =>
      let res : Response := { Result := Iface.slice dbs }
      renderJSON res StatusOK

/-- The handler `handleListUsers`. -/
def handleListUsers (w : World) (_r : Request) : Go Unit := do
  match ← getConnection w with
  | .error err =>
    renderErr err
    return
  | .ok (pg, close) =>
    defer close
    emit (Event.ListUsers pg)
    match w.ListUsers pg with
    | .error err =>
      renderErr err
      return
    | .ok users =>
      let res : Response := { Result := Iface.slice users }
      renderJSON res StatusOK

/-- The handler `handleFindUser`. -/
def handleFindUser (w : World) (r : Request) : Go Unit := do
  match ← getConnection w with
  | .error err =>
    renderErr err
    return
  | .ok (pg, close) =>
    defer close
    let name := r.URLParam (str "name")
    emit (Event.FindUser pg name)
    match w.FindUser pg name with
    | .error err =>
      renderErr err
      return
    | .ok user =>
      let res : Response := { Result := Iface.ptr user }
      renderJSON res StatusOK

/-- The handler `handleFindDatabase`. -/
def handleFindDatabase (w : World) (r : Request) : Go Unit := do
  match ← getConnection w with
  | .error err =>
    renderErr err
    return
  | .ok (pg, close) =>
    defer close
    let name := r.URLParam (str "name")
    emit (Event.FindDatabase pg name)
    match w.FindDatabase pg name with
    | .error err =>
      renderErr err
      return
    | .ok db =>
      let res : Response := { Result := Iface.ptr db }
      renderJSON res StatusOK

/-- The handler `handleCreateUser`. -/
def handleCreateUser (w : World) (r : Request) : Go Unit := do
  match ← getConnection w with
  | .error err =>
    renderErr err
    return
  | .ok (pg, close) =>
    defer close
    match w.decodeCreateUser r.Body with
    | .error err =>
      renderErr err
      return
    | .ok input =>
      defer Deferred.bodyClose
      emit (Event.CreateUser pg input.Username input.Password)
      if let some err := w.CreateUser pg input.Username input.Password then
        renderErr err
        return
      if input.Database ≠ [] then
        emit (Event.GrantAccess pg input.Username input.Database)
        if let some err := w.GrantAccess pg input.Username input.Database then
          renderErr err
          return
      if input.Superuser then
        emit (Event.GrantSuperuser pg input.Username)
        if let some err := w.GrantSuperuser pg input.Username then
          renderErr err
          return
      let res : Response := { Result := Iface.bool true }
      renderJSON res StatusOK

/-- The handler `handleDeleteUser`. -/
def handleDeleteUser (w : World) (r : Request) : Go Unit := do
  match ← getConnection w with
  | .error err =>
    renderErr err
    return
  | .ok (pg, close) =>
    defer close
    let name := r.URLParam (str "name")
    emit (Event.DeleteUser pg name)
    if let some err := w.DeleteUser pg name then
      renderErr err
      return
    let res : Response := { Result := Iface.bool true }
    renderJSON res StatusOK

/-- The handler `handleCreateDatabase`. -/
def handleCreateDatabase (w : World) (r : Request) : Go Unit := do
  match ← getConnection w with
  | .error err =>
    renderErr err
    return
  | .ok (pg, close) =>
    defer close
    match w.decodeCreateDatabase r.Body with
    | .error err =>
      renderErr err
      return
    | .ok input =>
      defer Deferred.bodyClose
      emit (Event.CreateDatabase pg input.Name)
      if let some err := w.CreateDatabase pg input.Name then
        renderErr err
        return
      let res : Response := { Result := Iface.bool true }
      renderJSON res StatusOK

/-- The handler `handleDeleteDatabase`. -/
def handleDeleteDatabase (w : World) (r : Request) : Go Unit := do
  match ← getConnection w with
  | .error err =>
    renderErr err
    return
  | .ok (pg, close) =>
    defer close
    let name := r.URLParam (str "name")
    emit (Event.DeleteDatabase pg name)
    if let some err := w.DeleteDatabase pg name then
      renderErr err
      return
    let res : Response := { Result := Iface.bool true }
    renderJSON res StatusOK

/-! ## The handlers without a database connection -/

/-- The handler `handleFailover`. -/
def handleFailover (_w : World) (_r : Request) : Go Unit := do
  let res : Response := { Result := Iface.bool true }
  renderJSON res StatusOK

/-- The method `(*exec.Cmd).Run` of the Go library: start the command and wait
for it.  A command that cannot be started gives the start error and leaves
`cmd.ProcessState` nil; a command that terminates gives no error when its
state is a success (exit code `0`) and otherwise an `*exec.ExitError`, whose
text is the `String()` of the process state.  The result is the error
together with `cmd.ProcessState` after the call. -/
def cmdRun (w : World) (name : GoString) (args : List GoString) :
    Go (Option GoError × Option ProcessState) := do
  emit (Event.cmdRun name args)
  match w.exec name args with
  | .startFailed err => return (some err, none)
  | .terminated st =>
    if st.ExitCode = 0 then return (none, some st)
    else return (some { msg := st.String }, some st)

/-- The method `(*os.ProcessState).ExitCode`, which answers `-1` on a nil
receiver. -/
def ProcessState.exitCodeOf : Option ProcessState → Int
  | none => -1
  | some st => st.ExitCode

/-- The method `(*os.ProcessState).String`, which answers `<nil>` on a nil
receiver. -/
def ProcessState.stringOf : Option ProcessState → GoString
  | none => str "<nil>"
  | some st => st.String

/-- The handler `handleRestart`. -/
def handleRestart (w : World) (_r : Request) : Go Unit := do
  let args := [str "stolon", str "pg_ctl", str "-D", str "/data/postgres", str "restart"]
  let (err, processState) ← cmdRun w (str "gosu") args
  if let some err := err then
    renderErr err
    return
  if ProcessState.exitCodeOf processState ≠ 0 then
    let err := w.Errorf (ProcessState.stringOf processState)
    renderErr err
    return
  let res : Response := { Result := Iface.string (str "Restart completed successfully") }
  renderJSON res StatusOK

/-- The handler `handleSettings`. -/
def handleSettings (_w : World) (_r : Request) : Go Unit := do
  let res : Response := { Result := Iface.bool true }
  renderJSON res StatusOK

/-- The loop of `strings.trimLeftByte`: drop the bytes equal to `c` from the
front. -/
def trimLeftByte (s : GoString) (c : Nat) : GoString := s.dropWhile (fun b => b == c)

/-- The loop of `strings.trimRightByte`: drop the bytes equal to `c` from the
back. -/
def trimRightByte (s : GoString) (c : Nat) : GoString := s.rdropWhile (fun b => b == c)

/-- The library function `strings.Trim(s, cutset)` for a cutset of a single
ASCII byte `c`, the only way `handleRole` calls it: every leading and every
trailing byte equal to `c` is removed. -/
def Trim (s : GoString) (c : Nat) : GoString := trimLeftByte (trimRightByte s c) c

/-- The newline byte, the cutset of the first `strings.Trim` of `handleRole`. -/
def newline : Nat := 10

/-- The double-quote byte, the cutset of the second `strings.Trim`. -/
def quote : Nat := 34

/-- The error built by `fmt.Errorf(prefix + "%w", err)`: the prefix followed by
the text of `err`, or by `%!w(<nil>)` when `err` is nil. -/
def ErrorfW (pre : GoString) (err : Option GoError) : GoError :=
  match err with
  | some e => { msg := pre ++ e.msg }
  | none => { msg := pre ++ str "%!w(<nil>)" }

/-- The call `util.WriteError(err)`.  The function is not in `handler.go` and
takes no response writer: it cannot write to the HTTP response.  Whether it
returns is read from the world. -/
def utilWriteError (w : World) (err : GoError) : Go Unit := do
  emit (Event.utilWriteError err)
  if w.writeErrorReturns then return else osExit

/-- The endpoint `fmt.Sprintf("http://[%s]:5500/flycheck/role", in.Address)`
of the peer with the given address. -/
def roleEndpoint (address : GoString) : GoString :=
  str "http://[" ++ address ++ str "]:5500/flycheck/role"

/-- The role string computed from the body read: `strings.Trim` with cutset
newline, then `strings.Trim` with cutset double quote (the two assignments to
`role` in `handleRole`). -/
def normalizeRole (body : GoString) : GoString :=
  let role := Trim body newline
  let role := Trim role quote
  role

/-- The handler `handleRole`.  Reading `in.Address` of a nil `in` panics, as
does reading `resp.StatusCode` of a nil `resp`. -/
def handleRole (w : World) (r : Request) : Go Unit := do
  match w.decodeCheckRole r.Body with
  | .error err =>
    renderErr err
    return
  | .ok none => nilDeref
  | .ok (some input) =>
    let endpoint := roleEndpoint input.Address
    emit (Event.httpGet endpoint)
    let (resp, err) := w.httpGet endpoint
    if let some e := err then
      renderErr e
    match resp with
    | none => nilDeref
    | some resp =>
      if resp.StatusCode ≠ StatusOK then
        renderErr (ErrorfW (str "role check failed ") err)
        return
      emit Event.readAll
      let (body, err) := resp.ReadAll
      if let some e := err then
        utilWriteError w e
      let res : Response := { Result := Iface.string (normalizeRole body) }
      renderJSON res StatusOK

/-! ## The router -/

/-- An HTTP method of the route table. -/
inductive Method where
  | GET
  | POST
  | DELETE
deriving DecidableEq, Repr

/-- A route: method, path pattern and handler. -/
abbrev Route := Method × String × (World → Request → Go Unit)

/-- The routes under `/users`. -/
def usersRoutes : List Route :=
  [ (Method.GET, "/users/{name}", handleFindUser),
    (Method.GET, "/users/list", handleListUsers),
    (Method.POST, "/users/create", handleCreateUser),
    (Method.DELETE, "/users/delete/{name}", handleDeleteUser) ]

/-- The routes under `/databases`. -/
def databasesRoutes : List Route :=
  [ (Method.GET, "/databases/list", handleListDatabases),
    (Method.GET, "/databases/{name}", handleFindDatabase),
    (Method.POST, "/databases/create", handleCreateDatabase),
    (Method.DELETE, "/databases/delete/{name}", handleDeleteDatabase) ]

/-- The routes under `/admin`. -/
def adminRoutes : List Route :=
  [ (Method.GET, "/admin/failover", handleFailover),
    (Method.GET, "/admin/restart", handleRestart),
    (Method.GET, "/admin/settings", handleSettings),
    (Method.POST, "/admin/role", handleRole) ]

/-- The function `Handler`: the route table of the package. -/
def Handler : List Route := usersRoutes ++ databasesRoutes ++ adminRoutes

/-! ## The response envelope -/

/-- The wire envelope `{result, error}`; `none` stands for JSON `null`. -/
structure Envelope where
  result : Option Iface
  error : Option GoString
deriving DecidableEq, Repr

/-- Modelled from the spec: the package `render` is not in `handler.go`.  By
the spec `render.Err` puts the text of the error in the `error` field and no
result, and `render.JSON` encodes the `Response` it is given: `result` is
null exactly when the value stored in `Result` encodes as JSON `null`. -/
def Event.envelope : Event → Option Envelope
  | .renderErr err => some { result := none, error := some err.msg }
  | .renderJSON res _ =>
    some { result := if res.Result.jsonNull then none else some res.Result, error := res.Error }
  | _ => none

/-- The envelopes written while serving a request, in order. -/
def envelopes (t : List Event) : List Envelope := t.filterMap Event.envelope

/-- An envelope with exactly one of `result` and `error` populated. -/
def Envelope.exactlyOne (e : Envelope) : Bool := e.result.isSome != e.error.isSome

/-- An envelope that reports an error: `error` populated, no result. -/
def Envelope.isError (e : Envelope) : Bool := e.result.isNone && e.error.isSome

/-! ## Observations on a trace -/

/-- Whether a call is one of the delegated calls of the `admin` package. -/
def Event.isAdmin : Event → Bool
  | .ListDatabases _ | .ListUsers _ | .FindUser _ _ | .FindDatabase _ _
  | .CreateUser _ _ _ | .GrantAccess _ _ _ | .GrantSuperuser _ _
  | .DeleteUser _ _ | .CreateDatabase _ _ | .DeleteDatabase _ _ => true
  | _ => false

/-- Whether a call writes a response (`render.Err` or `render.JSON`). -/
def Event.isRender : Event → Bool
  | .renderErr _ | .renderJSON _ _ => true
  | _ => false

/-- Whether a call acquires a connection. -/
def Event.isAcquire : Event → Bool
  | .NewProxyConnection _ => true
  | _ => false

/-- Whether a call is the release of a connection. -/
def Event.isRelease : Event → Bool
  | .pgClose _ => true
  | _ => false

/-- Whether a call is the run of an external command. -/
def Event.isCmdRun : Event → Bool
  | .cmdRun _ _ => true
  | _ => false

/-- The delegated `admin` calls of a trace, in order. -/
def adminCalls (t : List Event) : List Event := t.filter Event.isAdmin

/-- The responses written in a trace, in order. -/
def responses (t : List Event) : List Event := t.filter Event.isRender

/-- The connection a request obtains from `getConnection`, if it obtains one. -/
def World.acquired (w : World) : Option Conn :=
  match w.NewNode with
  | .error _ => none
  | .ok node =>
    match w.NewProxyConnection node with
    | .error _ => none
    | .ok pg => some pg

/-- The connection discipline on the calls of one request: at most one
connection is asked for; the release function is called exactly once when a
connection was acquired (and not at all otherwise); and that release is the
last call of the request. -/
def ConnectionScope (w : World) (t : List Event) : Prop :=
  t.countP Event.isAcquire ≤ 1 ∧
  t.filter Event.isRelease
    = (match w.acquired with
      | some pg => [Event.pgClose pg]
      | none => []) ∧
  ∀ pg, w.acquired = some pg → t.getLast? = some (Event.pgClose pg)

/-! ## The sequences of the spec -/

/-- The outcome, in a world, of a delegated `admin` call that reports only an
error. -/
def World.outcome (w : World) : Event → Option GoError
  | .CreateUser pg u p => w.CreateUser pg u p
  | .GrantAccess pg u d => w.GrantAccess pg u d
  | .GrantSuperuser pg u => w.GrantSuperuser pg u
  | .DeleteUser pg n => w.DeleteUser pg n
  | .CreateDatabase pg n => w.CreateDatabase pg n
  | .DeleteDatabase pg n => w.DeleteDatabase pg n
  | _ => none

/-- The CreateUser sequence in the words of the spec: (1) create the login
role; (2) if `database` is non-empty, grant access to that database; (3) if
`superuser` is true, grant superuser privilege. -/
def createUserPlan (pg : Conn) (input : createUserRequest) : List Event :=
  [Event.CreateUser pg input.Username input.Password]
    ++ (if input.Database ≠ [] then [Event.GrantAccess pg input.Username input.Database] else [])
    ++ (if input.Superuser then [Event.GrantSuperuser pg input.Username] else [])

/-- Carrying out a sequence of delegated calls in order and stopping after the
first one that fails: the calls made, and the first failure if there is one. -/
def runPlan (w : World) : List Event → List Event × Option GoError
  | [] => ([], none)
  | c :: rest =>
    match w.outcome c with
    | some err => ([c], some err)
    | none => (c :: (runPlan w rest).1, (runPlan w rest).2)

/-- The response for the outcome of a sequence: the first failure unchanged,
or the result `true`. -/
def planResponse : Option GoError → Event
  | some err => Event.renderErr err
  | none => Event.renderJSON { Result := Iface.bool true } StatusOK

/-- Remove one leading byte `c`, if the string starts with it. -/
def dropOneLeading (c : Nat) : GoString → GoString
  | [] => []
  | b :: rest => if b = c then rest else b :: rest

/-- Remove one trailing byte `c`, if the string ends with it. -/
def dropOneTrailing (c : Nat) (s : GoString) : GoString :=
  if s.getLast? = some c then s.dropLast else s

/-- The normalization in the words of the spec: a single trailing newline is
removed, then exactly one layer of surrounding double quotes (at most one
leading and one trailing quote). -/
def stripOneLayer (body : GoString) : GoString :=
  dropOneTrailing quote (dropOneLeading quote (dropOneTrailing newline body))

/-! ## Concrete worlds and requests -/

/-- A world in which every collaborator succeeds: lists and records come back
nil, the peer answers `200` with the body `"primary"` and a newline, and the
restart command exits with code `0`. -/
def World.calm : World where
  NewNode := .ok { id := 0 }
  NewProxyConnection := fun _ => .ok { id := 1 }
  ListDatabases := fun _ => .ok none
  ListUsers := fun _ => .ok none
  FindUser := fun _ _ => .ok none
  FindDatabase := fun _ _ => .ok none
  CreateUser := fun _ _ _ => none
  GrantAccess := fun _ _ _ => none
  GrantSuperuser := fun _ _ => none
  DeleteUser := fun _ _ => none
  CreateDatabase := fun _ _ => none
  DeleteDatabase := fun _ _ => none
  decodeCreateUser := fun _ =>
    .ok { Username := str "alice", Password := str "secret", Database := str "app",
          Superuser := true }
  decodeCreateDatabase := fun _ => .ok { Name := str "app" }
  decodeCheckRole := fun _ => .ok (some { Address := str "fdaa::3" })
  httpGet := fun _ =>
    (some { StatusCode := 200, ReadAll := (quote :: str "primary" ++ [quote, newline], none) },
     none)
  exec := fun _ _ => .terminated { ExitCode := 0, String := str "exit status 0" }
  Errorf := fun s => { msg := s }
  writeErrorReturns := true

/-- The calm world, except that `admin.GrantAccess` fails. -/
def World.grantFails : World :=
  { World.calm with GrantAccess := fun _ _ _ => some { msg := str "permission denied" } }

/-- The calm world, except that the name to delete does not exist: both
delete calls fail. -/
def World.missingName : World :=
  { World.calm with
    DeleteUser := fun _ _ => some { msg := str "role does not exist" }
    DeleteDatabase := fun _ _ => some { msg := str "database does not exist" } }

/-- The calm world, except that `http.Get` fails at transport level: a nil
response and a non-nil error. -/
def World.peerDown : World :=
  { World.calm with httpGet := fun _ => (none, some { msg := str "connection refused" }) }

/-- The calm world, except that the peer answers `503`. -/
def World.peerUnavailable : World :=
  { World.calm with
    httpGet := fun _ => (some { StatusCode := 503, ReadAll := ([], none) }, none) }

/-- The calm world, except that reading the body of the `200` reply fails
after the five bytes of a quote and `prim`. -/
def World.readFails : World :=
  { World.calm with
    httpGet := fun _ =>
      (some { StatusCode := 200,
              ReadAll := (quote :: str "prim", some { msg := str "unexpected EOF" }) },
       none) }

/-- The world of `World.readFails` in which `util.WriteError` ends the
process instead of returning. -/
def World.readFailsExit : World :=
  { World.readFails with writeErrorReturns := false }

/-- The calm world, except that the body of the `200` reply is a newline
followed by `replica`. -/
def World.leadingNewline : World :=
  { World.calm with
    httpGet := fun _ =>
      (some { StatusCode := 200, ReadAll := (newline :: str "replica", none) }, none) }

/-- The calm world, except that the restart command exits with code `1`. -/
def World.restartFails : World :=
  { World.calm with
    exec := fun _ _ => .terminated { ExitCode := 1, String := str "exit status 1" } }

/-- A request with an empty body whose URL parameters all read `ghost`. -/
def Request.sample : Request := { Body := [], URLParam := fun _ => str "ghost" }

/-- The endpoint `handleRole` queries for the address of the calm worlds. -/
def sampleEndpoint : GoString := roleEndpoint (str "fdaa::3")

/-- The fixed command line of `handleRestart`. -/
def restartArgs : List GoString :=
  [str "stolon", str "pg_ctl", str "-D", str "/data/postgres", str "restart"]

/-! ## The envelope rule -/

/-- An envelope that reports a success: result populated, no error. -/
def Envelope.isSuccess (e : Envelope) : Bool := e.result.isSome && e.error.isNone

/-- The outcome of `getConnection` in a world: the connection, or the error
of `flypg.NewNode` or of `NewProxyConnection`. -/
def World.connection (w : World) : Except GoError Conn :=
  match w.NewNode with
  | .error err => .error err
  | .ok node => w.NewProxyConnection node

/-- The routes whose success value is a list or a record handed over by the
collaborator, which may be nil: the two `list` and the two find routes. -/
def nilableRoutes : List Route :=
  [ (Method.GET, "/users/{name}", handleFindUser),
    (Method.GET, "/users/list", handleListUsers),
    (Method.GET, "/databases/list", handleListDatabases),
    (Method.GET, "/databases/{name}", handleFindDatabase) ]

/-- The envelopes `envs` of a list or find request are decided by the
outcomes of the collaborators.  When `getConnection` fails, or when the
delegated call `value` returns an error, the one envelope is that error with
no result.  When the call returns nil with no error, the one envelope has
both fields null.  When it returns a non-nil value `x` (an empty list is one)
with no error, the one envelope has that value, stored in the interface by
`wrap`, as result and no error. -/
def NilableRule {α : Type} (w : World) (envs : List Envelope) (wrap : Option α → Iface)
    (value : Conn → Except GoError (Option α)) : Prop :=
  (∀ err, w.connection = .error err → envs = [{ result := none, error := some err.msg }]) ∧
  ∀ pg, w.connection = .ok pg →
    (∀ err, value pg = .error err → envs = [{ result := none, error := some err.msg }]) ∧
    (value pg = .ok none → envs = [{ result := none, error := none }]) ∧
    (∀ x, value pg = .ok (some x) →
      envs = [{ result := some (wrap (some x)), error := none }])

/-- The calm world, except that both list calls return an empty list that is
not nil. -/
def World.emptyLists : World :=
  { World.calm with
    ListUsers := fun _ => .ok (some [])
    ListDatabases := fun _ => .ok (some []) }

/-! ## CreateUser: order of the delegated calls -/

/-- C1: once `handleCreateUser` has acquired a connection `pg` and decoded the
body into `input`, its delegated calls are those of the CreateUser sequence
(`admin.CreateUser`, then `admin.GrantAccess` iff `database` is non-empty, then
`admin.GrantSuperuser` iff `superuser` is true) carried out in order up to and
including the first call that fails; exactly one response is written, the
first failure unchanged or the result `true`; when `GrantAccess` is called and
fails `GrantSuperuser` is never called; and with an empty `database` and
`superuser` false the only delegated call is `CreateUser`. -/
theorem handleCreateUser_ordered_calls (w : World) (r : Request) (node : Node) (pg : Conn)
    (input : createUserRequest)
    (hNode : w.NewNode = .ok node) (hConn : w.NewProxyConnection node = .ok pg)
    (hDec : w.decodeCreateUser r.Body = .ok input) :
    adminCalls (serve (handleCreateUser w r)).1 = (runPlan w (createUserPlan pg input)).1
    ∧ responses (serve (handleCreateUser w r)).1
        = [planResponse (runPlan w (createUserPlan pg input)).2]
    ∧ (input.Database ≠ [] → w.GrantAccess pg input.Username input.Database ≠ none →
        ∀ pg1 u1, Event.GrantSuperuser pg1 u1 ∉ (serve (handleCreateUser w r)).1)
    ∧ (input.Database = [] → input.Superuser = false →
        adminCalls (serve (handleCreateUser w r)).1
          = [Event.CreateUser pg input.Username input.Password]) := by
  rcases input with ⟨u, p, db, su⟩
  cases hcu : w.CreateUser pg u p <;> cases hga : w.GrantAccess pg u db <;>
    cases hgs : w.GrantSuperuser pg u <;> cases su <;> by_cases hdb : db = [] <;>
    simp [serve, handleCreateUser, getConnection, hNode, hConn, hDec, hcu, hga, hgs, hdb,
      bind, Go.bind, emit, pure, defer, renderErr, renderJSON, adminCalls, responses,
      Event.isAdmin, Event.isRender, runPlan, createUserPlan, World.outcome, planResponse,
      Deferred.event]

/-- Witness of C1: a request for user `alice` on database `app` with the
superuser flag, in a world where `GrantAccess` fails. -/
theorem handleCreateUser_ordered_calls_witness :
    (World.grantFails.NewNode = .ok { id := 0 }
      ∧ World.grantFails.NewProxyConnection { id := 0 } = .ok { id := 1 }
      ∧ World.grantFails.decodeCreateUser Request.sample.Body
          = .ok { Username := str "alice", Password := str "secret", Database := str "app",
                  Superuser := true })
    ∧ adminCalls (serve (handleCreateUser World.grantFails Request.sample)).1
        = [Event.CreateUser { id := 1 } (str "alice") (str "secret"),
           Event.GrantAccess { id := 1 } (str "alice") (str "app")]
    ∧ responses (serve (handleCreateUser World.grantFails Request.sample)).1
        = [Event.renderErr { msg := str "permission denied" }] := by
  have h := handleCreateUser_ordered_calls World.grantFails Request.sample { id := 0 } { id := 1 }
    { Username := str "alice", Password := str "secret", Database := str "app", Superuser := true }
    rfl rfl rfl
  refine ⟨⟨rfl, rfl, rfl⟩, ?_, ?_⟩
  · rw [h.1]; decide
  · rw [h.2.1]; decide

/-! ## Connection scope -/

/-- Connection discipline of `handleListDatabases`, on every path. -/
theorem handleListDatabases_scope (w : World) (r : Request) :
    ConnectionScope w (serve (handleListDatabases w r)).1 ∧ (serve (handleListDatabases w r)).2 = Exit.returned := by
  unfold ConnectionScope
  cases hN : w.NewNode with
  | error e =>
    simp [serve, handleListDatabases, getConnection, hN, bind, Go.bind, emit, pure, defer, renderErr, renderJSON,
      Event.isAcquire, Event.isRelease, Deferred.event, World.acquired]
  | ok node =>
    cases hC : w.NewProxyConnection node with
    | error e =>
      simp [serve, handleListDatabases, getConnection, hN, hC, bind, Go.bind, emit, pure, defer, renderErr, renderJSON,
      Event.isAcquire, Event.isRelease, Deferred.event, World.acquired]
    | ok pg =>
      cases hA : w.ListDatabases pg <;>
      simp [serve, handleListDatabases, getConnection, hN, hC, hA, bind, Go.bind, emit, pure, defer, renderErr, renderJSON,
      Event.isAcquire, Event.isRelease, Deferred.event, World.acquired]

/-- Connection discipline of `handleListUsers`, on every path. -/
theorem handleListUsers_scope (w : World) (r : Request) :
    ConnectionScope w (serve (handleListUsers w r)).1 ∧ (serve (handleListUsers w r)).2 = Exit.returned := by
  unfold ConnectionScope
  cases hN : w.NewNode with
  | error e =>
    simp [serve, handleListUsers, getConnection, hN, bind, Go.bind, emit, pure, defer, renderErr, renderJSON,
      Event.isAcquire, Event.isRelease, Deferred.event, World.acquired]
  | ok node =>
    cases hC : w.NewProxyConnection node with
    | error e =>
      simp [serve, handleListUsers, getConnection, hN, hC, bind, Go.bind, emit, pure, defer, renderErr, renderJSON,
      Event.isAcquire, Event.isRelease, Deferred.event, World.acquired]
    | ok pg =>
      cases hA : w.ListUsers pg <;>
      simp [serve, handleListUsers, getConnection, hN, hC, hA, bind, Go.bind, emit, pure, defer, renderErr, renderJSON,
      Event.isAcquire, Event.isRelease, Deferred.event, World.acquired]

/-- Connection discipline of `handleFindUser`, on every path. -/
theorem handleFindUser_scope (w : World) (r : Request) :
    ConnectionScope w (serve (handleFindUser w r)).1 ∧ (serve (handleFindUser w r)).2 = Exit.returned := by
  unfold ConnectionScope
  cases hN : w.NewNode with
  | error e =>
    simp [serve, handleFindUser, getConnection, hN, bind, Go.bind, emit, pure, defer, renderErr, renderJSON,
      Event.isAcquire, Event.isRelease, Deferred.event, World.acquired]
  | ok node =>
    cases hC : w.NewProxyConnection node with
    | error e =>
      simp [serve, handleFindUser, getConnection, hN, hC, bind, Go.bind, emit, pure, defer, renderErr, renderJSON,
      Event.isAcquire, Event.isRelease, Deferred.event, World.acquired]
    | ok pg =>
      cases hA : w.FindUser pg (r.URLParam (str "name")) <;>
      simp [serve, handleFindUser, getConnection, hN, hC, hA, bind, Go.bind, emit, pure, defer, renderErr, renderJSON,
      Event.isAcquire, Event.isRelease, Deferred.event, World.acquired]

/-- Connection discipline of `handleFindDatabase`, on every path. -/
theorem handleFindDatabase_scope (w : World) (r : Request) :
    ConnectionScope w (serve (handleFindDatabase w r)).1 ∧ (serve (handleFindDatabase w r)).2 = Exit.returned := by
  unfold ConnectionScope
  cases hN : w.NewNode with
  | error e =>
    simp [serve, handleFindDatabase, getConnection, hN, bind, Go.bind, emit, pure, defer, renderErr, renderJSON,
      Event.isAcquire, Event.isRelease, Deferred.event, World.acquired]
  | ok node =>
    cases hC : w.NewProxyConnection node with
    | error e =>
      simp [serve, handleFindDatabase, getConnection, hN, hC, bind, Go.bind, emit, pure, defer, renderErr, renderJSON,
      Event.isAcquire, Event.isRelease, Deferred.event, World.acquired]
    | ok pg =>
      cases hA : w.FindDatabase pg (r.URLParam (str "name")) <;>
      simp [serve, handleFindDatabase, getConnection, hN, hC, hA, bind, Go.bind, emit, pure, defer, renderErr, renderJSON,
      Event.isAcquire, Event.isRelease, Deferred.event, World.acquired]

/-- Connection discipline of `handleCreateUser`, on every path. -/
theorem handleCreateUser_scope (w : World) (r : Request) :
    ConnectionScope w (serve (handleCreateUser w r)).1 ∧ (serve (handleCreateUser w r)).2 = Exit.returned := by
  unfold ConnectionScope
  cases hN : w.NewNode with
  | error e =>
    simp [serve, handleCreateUser, getConnection, hN, bind, Go.bind, emit, pure, defer, renderErr, renderJSON,
      Event.isAcquire, Event.isRelease, Deferred.event, World.acquired]
  | ok node =>
    cases hC : w.NewProxyConnection node with
    | error e =>
      simp [serve, handleCreateUser, getConnection, hN, hC, bind, Go.bind, emit, pure, defer, renderErr, renderJSON,
      Event.isAcquire, Event.isRelease, Deferred.event, World.acquired]
    | ok pg =>
      cases hD : w.decodeCreateUser r.Body with
      | error e =>
        simp [serve, handleCreateUser, getConnection, hN, hC, hD, bind, Go.bind, emit, pure, defer, renderErr, renderJSON,
      Event.isAcquire, Event.isRelease, Deferred.event, World.acquired]
      | ok input =>
        rcases input with ⟨u, p, db, su⟩
        cases hcu : w.CreateUser pg u p <;> cases hga : w.GrantAccess pg u db <;>
        cases hgs : w.GrantSuperuser pg u <;> cases su <;> by_cases hdb : db = [] <;>
        simp [serve, handleCreateUser, getConnection, hN, hC, hD, hcu, hga, hgs, hdb,
          bind, Go.bind, emit, pure, defer, renderErr, renderJSON,
      Event.isAcquire, Event.isRelease, Deferred.event, World.acquired]

/-- Connection discipline of `handleDeleteUser`, on every path. -/
theorem handleDeleteUser_scope (w : World) (r : Request) :
    ConnectionScope w (serve (handleDeleteUser w r)).1 ∧ (serve (handleDeleteUser w r)).2 = Exit.returned := by
  unfold ConnectionScope
  cases hN : w.NewNode with
  | error e =>
    simp [serve, handleDeleteUser, getConnection, hN, bind, Go.bind, emit, pure, defer, renderErr, renderJSON,
      Event.isAcquire, Event.isRelease, Deferred.event, World.acquired]
  | ok node =>
    cases hC : w.NewProxyConnection node with
    | error e =>
      simp [serve, handleDeleteUser, getConnection, hN, hC, bind, Go.bind, emit, pure, defer, renderErr, renderJSON,
      Event.isAcquire, Event.isRelease, Deferred.event, World.acquired]
    | ok pg =>
      cases hA : w.DeleteUser pg (r.URLParam (str "name")) <;>
      simp [serve, handleDeleteUser, getConnection, hN, hC, hA, bind, Go.bind, emit, pure, defer, renderErr, renderJSON,
      Event.isAcquire, Event.isRelease, Deferred.event, World.acquired]

/-- Connection discipline of `handleCreateDatabase`, on every path. -/
theorem handleCreateDatabase_scope (w : World) (r : Request) :
    ConnectionScope w (serve (handleCreateDatabase w r)).1 ∧ (serve (handleCreateDatabase w r)).2 = Exit.returned := by
  unfold ConnectionScope
  cases hN : w.NewNode with
  | error e =>
    simp [serve, handleCreateDatabase, getConnection, hN, bind, Go.bind, emit, pure, defer, renderErr, renderJSON,
      Event.isAcquire, Event.isRelease, Deferred.event, World.acquired]
  | ok node =>
    cases hC : w.NewProxyConnection node with
    | error e =>
      simp [serve, handleCreateDatabase, getConnection, hN, hC, bind, Go.bind, emit, pure, defer, renderErr, renderJSON,
      Event.isAcquire, Event.isRelease, Deferred.event, World.acquired]
    | ok pg =>
      cases hD : w.decodeCreateDatabase r.Body with
      | error e =>
        simp [serve, handleCreateDatabase, getConnection, hN, hC, hD, bind, Go.bind, emit, pure, defer, renderErr, renderJSON,
      Event.isAcquire, Event.isRelease, Deferred.event, World.acquired]
      | ok input =>
        cases hA : w.CreateDatabase pg input.Name <;>
        simp [serve, handleCreateDatabase, getConnection, hN, hC, hD, hA, bind, Go.bind, emit, pure, defer, renderErr, renderJSON,
      Event.isAcquire, Event.isRelease, Deferred.event, World.acquired]

/-- Connection discipline of `handleDeleteDatabase`, on every path. -/
theorem handleDeleteDatabase_scope (w : World) (r : Request) :
    ConnectionScope w (serve (handleDeleteDatabase w r)).1 ∧ (serve (handleDeleteDatabase w r)).2 = Exit.returned := by
  unfold ConnectionScope
  cases hN : w.NewNode with
  | error e =>
    simp [serve, handleDeleteDatabase, getConnection, hN, bind, Go.bind, emit, pure, defer, renderErr, renderJSON,
      Event.isAcquire, Event.isRelease, Deferred.event, World.acquired]
  | ok node =>
    cases hC : w.NewProxyConnection node with
    | error e =>
      simp [serve, handleDeleteDatabase, getConnection, hN, hC, bind, Go.bind, emit, pure, defer, renderErr, renderJSON,
      Event.isAcquire, Event.isRelease, Deferred.event, World.acquired]
    | ok pg =>
      cases hA : w.DeleteDatabase pg (r.URLParam (str "name")) <;>
      simp [serve, handleDeleteDatabase, getConnection, hN, hC, hA, bind, Go.bind, emit, pure, defer, renderErr, renderJSON,
      Event.isAcquire, Event.isRelease, Deferred.event, World.acquired]

/-- C2: for each of the eight database-backed handlers (the routes under
`/users` and `/databases`), every world and every request: at most one
connection is asked for; when a connection was acquired the release function
returned by `getConnection` is called exactly once, whichever way the handler
leaves (decode failure, failure of a delegated call, success), and it is the
last call of the request; without a connection it is not called. -/
theorem release_exactly_once (rt : Route) (hrt : rt ∈ usersRoutes ++ databasesRoutes)
    (w : World) (r : Request) :
    ConnectionScope w (serve (rt.2.2 w r)).1 ∧ (serve (rt.2.2 w r)).2 = Exit.returned := by
  simp only [usersRoutes, databasesRoutes, List.cons_append, List.nil_append, List.mem_cons,
    List.mem_singleton, List.not_mem_nil, or_false] at hrt
  rcases hrt with rfl | rfl | rfl | rfl | rfl | rfl | rfl | rfl
  · exact handleFindUser_scope w r
  · exact handleListUsers_scope w r
  · exact handleCreateUser_scope w r
  · exact handleDeleteUser_scope w r
  · exact handleListDatabases_scope w r
  · exact handleFindDatabase_scope w r
  · exact handleCreateDatabase_scope w r
  · exact handleDeleteDatabase_scope w r

/-! ## Envelopes -/

/-- Envelopes of `handleListDatabases`, on every path. -/
theorem handleListDatabases_envelopes (w : World) (r : Request) :
    NilableRule w (envelopes (serve (handleListDatabases w r)).1) Iface.slice
      w.ListDatabases := by
  unfold NilableRule
  cases hN : w.NewNode with
  | error e =>
    simp [serve, handleListDatabases, getConnection, hN, bind, Go.bind, emit, pure, defer, renderErr, renderJSON,
      Deferred.event, envelopes, Event.envelope, Envelope.isError, Envelope.isSuccess,
      Iface.jsonNull, World.connection]
  | ok node =>
    cases hC : w.NewProxyConnection node with
    | error e =>
      simp [serve, handleListDatabases, getConnection, hN, hC, bind, Go.bind, emit, pure, defer, renderErr, renderJSON,
      Deferred.event, envelopes, Event.envelope, Envelope.isError, Envelope.isSuccess,
      Iface.jsonNull, World.connection]
    | ok pg =>
      cases hA : w.ListDatabases pg with
      | error e =>
        simp [serve, handleListDatabases, getConnection, hN, hC, hA, bind, Go.bind, emit, pure, defer, renderErr, renderJSON,
      Deferred.event, envelopes, Event.envelope, Envelope.isError, Envelope.isSuccess,
      Iface.jsonNull, World.connection]
      | ok v =>
        cases v <;>
        simp [serve, handleListDatabases, getConnection, hN, hC, hA, bind, Go.bind, emit, pure, defer, renderErr, renderJSON,
      Deferred.event, envelopes, Event.envelope, Envelope.isError, Envelope.isSuccess,
      Iface.jsonNull, World.connection]

/-- Envelopes of `handleListUsers`, on every path. -/
theorem handleListUsers_envelopes (w : World) (r : Request) :
    NilableRule w (envelopes (serve (handleListUsers w r)).1) Iface.slice
      w.ListUsers := by
  unfold NilableRule
  cases hN : w.NewNode with
  | error e =>
    simp [serve, handleListUsers, getConnection, hN, bind, Go.bind, emit, pure, defer, renderErr, renderJSON,
      Deferred.event, envelopes, Event.envelope, Envelope.isError, Envelope.isSuccess,
      Iface.jsonNull, World.connection]
  | ok node =>
    cases hC : w.NewProxyConnection node with
    | error e =>
      simp [serve, handleListUsers, getConnection, hN, hC, bind, Go.bind, emit, pure, defer, renderErr, renderJSON,
      Deferred.event, envelopes, Event.envelope, Envelope.isError, Envelope.isSuccess,
      Iface.jsonNull, World.connection]
    | ok pg =>
      cases hA : w.ListUsers pg with
      | error e =>
        simp [serve, handleListUsers, getConnection, hN, hC, hA, bind, Go.bind, emit, pure, defer, renderErr, renderJSON,
      Deferred.event, envelopes, Event.envelope, Envelope.isError, Envelope.isSuccess,
      Iface.jsonNull, World.connection]
      | ok v =>
        cases v <;>
        simp [serve, handleListUsers, getConnection, hN, hC, hA, bind, Go.bind, emit, pure, defer, renderErr, renderJSON,
      Deferred.event, envelopes, Event.envelope, Envelope.isError, Envelope.isSuccess,
      Iface.jsonNull, World.connection]

/-- Envelopes of `handleFindUser`, on every path. -/
theorem handleFindUser_envelopes (w : World) (r : Request) :
    NilableRule w (envelopes (serve (handleFindUser w r)).1) Iface.ptr
      (fun pg => w.FindUser pg (r.URLParam (str "name"))) := by
  unfold NilableRule
  cases hN : w.NewNode with
  | error e =>
    simp [serve, handleFindUser, getConnection, hN, bind, Go.bind, emit, pure, defer, renderErr, renderJSON,
      Deferred.event, envelopes, Event.envelope, Envelope.isError, Envelope.isSuccess,
      Iface.jsonNull, World.connection]
  | ok node =>
    cases hC : w.NewProxyConnection node with
    | error e =>
      simp [serve, handleFindUser, getConnection, hN, hC, bind, Go.bind, emit, pure, defer, renderErr, renderJSON,
      Deferred.event, envelopes, Event.envelope, Envelope.isError, Envelope.isSuccess,
      Iface.jsonNull, World.connection]
    | ok pg =>
      cases hA : w.FindUser pg (r.URLParam (str "name")) with
      | error e =>
        simp [serve, handleFindUser, getConnection, hN, hC, hA, bind, Go.bind, emit, pure, defer, renderErr, renderJSON,
      Deferred.event, envelopes, Event.envelope, Envelope.isError, Envelope.isSuccess,
      Iface.jsonNull, World.connection]
      | ok v =>
        cases v <;>
        simp [serve, handleFindUser, getConnection, hN, hC, hA, bind, Go.bind, emit, pure, defer, renderErr, renderJSON,
      Deferred.event, envelopes, Event.envelope, Envelope.isError, Envelope.isSuccess,
      Iface.jsonNull, World.connection]

/-- Envelopes of `handleFindDatabase`, on every path. -/
theorem handleFindDatabase_envelopes (w : World) (r : Request) :
    NilableRule w (envelopes (serve (handleFindDatabase w r)).1) Iface.ptr
      (fun pg => w.FindDatabase pg (r.URLParam (str "name"))) := by
  unfold NilableRule
  cases hN : w.NewNode with
  | error e =>
    simp [serve, handleFindDatabase, getConnection, hN, bind, Go.bind, emit, pure, defer, renderErr, renderJSON,
      Deferred.event, envelopes, Event.envelope, Envelope.isError, Envelope.isSuccess,
      Iface.jsonNull, World.connection]
  | ok node =>
    cases hC : w.NewProxyConnection node with
    | error e =>
      simp [serve, handleFindDatabase, getConnection, hN, hC, bind, Go.bind, emit, pure, defer, renderErr, renderJSON,
      Deferred.event, envelopes, Event.envelope, Envelope.isError, Envelope.isSuccess,
      Iface.jsonNull, World.connection]
    | ok pg =>
      cases hA : w.FindDatabase pg (r.URLParam (str "name")) with
      | error e =>
        simp [serve, handleFindDatabase, getConnection, hN, hC, hA, bind, Go.bind, emit, pure, defer, renderErr, renderJSON,
      Deferred.event, envelopes, Event.envelope, Envelope.isError, Envelope.isSuccess,
      Iface.jsonNull, World.connection]
      | ok v =>
        cases v <;>
        simp [serve, handleFindDatabase, getConnection, hN, hC, hA, bind, Go.bind, emit, pure, defer, renderErr, renderJSON,
      Deferred.event, envelopes, Event.envelope, Envelope.isError, Envelope.isSuccess,
      Iface.jsonNull, World.connection]

/-- Envelopes of `handleCreateUser`, on every path. -/
theorem handleCreateUser_envelopes (w : World) (r : Request) :
    ∀ e ∈ envelopes (serve (handleCreateUser w r)).1, e.isError = true ∨ e.isSuccess = true := by
  cases hN : w.NewNode with
  | error e =>
    simp [serve, handleCreateUser, getConnection, hN, bind, Go.bind, emit, pure, defer, renderErr, renderJSON,
      Deferred.event, envelopes, Event.envelope, Envelope.isError, Envelope.isSuccess,
      Iface.jsonNull, World.connection]
  | ok node =>
    cases hC : w.NewProxyConnection node with
    | error e =>
      simp [serve, handleCreateUser, getConnection, hN, hC, bind, Go.bind, emit, pure, defer, renderErr, renderJSON,
      Deferred.event, envelopes, Event.envelope, Envelope.isError, Envelope.isSuccess,
      Iface.jsonNull, World.connection]
    | ok pg =>
      cases hD : w.decodeCreateUser r.Body with
      | error e =>
        simp [serve, handleCreateUser, getConnection, hN, hC, hD, bind, Go.bind, emit, pure, defer, renderErr, renderJSON,
      Deferred.event, envelopes, Event.envelope, Envelope.isError, Envelope.isSuccess,
      Iface.jsonNull, World.connection]
      | ok input =>
        rcases input with ⟨u, p, db, su⟩
        cases hcu : w.CreateUser pg u p <;> cases hga : w.GrantAccess pg u db <;>
        cases hgs : w.GrantSuperuser pg u <;> cases su <;> by_cases hdb : db = [] <;>
        simp [serve, handleCreateUser, getConnection, hN, hC, hD, hcu, hga, hgs, hdb,
          bind, Go.bind, emit, pure, defer, renderErr, renderJSON,
      Deferred.event, envelopes, Event.envelope, Envelope.isError, Envelope.isSuccess,
      Iface.jsonNull, World.connection]

/-- Envelopes of `handleDeleteUser`, on every path. -/
theorem handleDeleteUser_envelopes (w : World) (r : Request) :
    ∀ e ∈ envelopes (serve (handleDeleteUser w r)).1, e.isError = true ∨ e.isSuccess = true := by
  cases hN : w.NewNode with
  | error e =>
    simp [serve, handleDeleteUser, getConnection, hN, bind, Go.bind, emit, pure, defer, renderErr, renderJSON,
      Deferred.event, envelopes, Event.envelope, Envelope.isError, Envelope.isSuccess,
      Iface.jsonNull, World.connection]
  | ok node =>
    cases hC : w.NewProxyConnection node with
    | error e =>
      simp [serve, handleDeleteUser, getConnection, hN, hC, bind, Go.bind, emit, pure, defer, renderErr, renderJSON,
      Deferred.event, envelopes, Event.envelope, Envelope.isError, Envelope.isSuccess,
      Iface.jsonNull, World.connection]
    | ok pg =>
      cases hA : w.DeleteUser pg (r.URLParam (str "name")) <;>
      simp [serve, handleDeleteUser, getConnection, hN, hC, hA, bind, Go.bind, emit, pure, defer, renderErr, renderJSON,
      Deferred.event, envelopes, Event.envelope, Envelope.isError, Envelope.isSuccess,
      Iface.jsonNull, World.connection]

/-- Envelopes of `handleCreateDatabase`, on every path. -/
theorem handleCreateDatabase_envelopes (w : World) (r : Request) :
    ∀ e ∈ envelopes (serve (handleCreateDatabase w r)).1, e.isError = true ∨ e.isSuccess = true := by
  cases hN : w.NewNode with
  | error e =>
    simp [serve, handleCreateDatabase, getConnection, hN, bind, Go.bind, emit, pure, defer, renderErr, renderJSON,
      Deferred.event, envelopes, Event.envelope, Envelope.isError, Envelope.isSuccess,
      Iface.jsonNull, World.connection]
  | ok node =>
    cases hC : w.NewProxyConnection node with
    | error e =>
      simp [serve, handleCreateDatabase, getConnection, hN, hC, bind, Go.bind, emit, pure, defer, renderErr, renderJSON,
      Deferred.event, envelopes, Event.envelope, Envelope.isError, Envelope.isSuccess,
      Iface.jsonNull, World.connection]
    | ok pg =>
      cases hD : w.decodeCreateDatabase r.Body with
      | error e =>
        simp [serve, handleCreateDatabase, getConnection, hN, hC, hD, bind, Go.bind, emit, pure, defer, renderErr, renderJSON,
      Deferred.event, envelopes, Event.envelope, Envelope.isError, Envelope.isSuccess,
      Iface.jsonNull, World.connection]
      | ok input =>
        cases hA : w.CreateDatabase pg input.Name <;>
        simp [serve, handleCreateDatabase, getConnection, hN, hC, hD, hA, bind, Go.bind, emit, pure, defer, renderErr, renderJSON,
      Deferred.event, envelopes, Event.envelope, Envelope.isError, Envelope.isSuccess,
      Iface.jsonNull, World.connection]

/-- Envelopes of `handleDeleteDatabase`, on every path. -/
theorem handleDeleteDatabase_envelopes (w : World) (r : Request) :
    ∀ e ∈ envelopes (serve (handleDeleteDatabase w r)).1, e.isError = true ∨ e.isSuccess = true := by
  cases hN : w.NewNode with
  | error e =>
    simp [serve, handleDeleteDatabase, getConnection, hN, bind, Go.bind, emit, pure, defer, renderErr, renderJSON,
      Deferred.event, envelopes, Event.envelope, Envelope.isError, Envelope.isSuccess,
      Iface.jsonNull, World.connection]
  | ok node =>
    cases hC : w.NewProxyConnection node with
    | error e =>
      simp [serve, handleDeleteDatabase, getConnection, hN, hC, bind, Go.bind, emit, pure, defer, renderErr, renderJSON,
      Deferred.event, envelopes, Event.envelope, Envelope.isError, Envelope.isSuccess,
      Iface.jsonNull, World.connection]
    | ok pg =>
      cases hA : w.DeleteDatabase pg (r.URLParam (str "name")) <;>
      simp [serve, handleDeleteDatabase, getConnection, hN, hC, hA, bind, Go.bind, emit, pure, defer, renderErr, renderJSON,
      Deferred.event, envelopes, Event.envelope, Envelope.isError, Envelope.isSuccess,
      Iface.jsonNull, World.connection]

/-- Envelopes of `handleFailover`. -/
theorem handleFailover_envelopes (w : World) (r : Request) :
    ∀ e ∈ envelopes (serve (handleFailover w r)).1, e.isError = true ∨ e.isSuccess = true := by
  simp [serve, handleFailover, bind, Go.bind, emit, pure, defer, renderErr, renderJSON,
      Deferred.event, envelopes, Event.envelope, Envelope.isError, Envelope.isSuccess,
      Iface.jsonNull, World.connection]

/-- Envelopes of `handleSettings`. -/
theorem handleSettings_envelopes (w : World) (r : Request) :
    ∀ e ∈ envelopes (serve (handleSettings w r)).1, e.isError = true ∨ e.isSuccess = true := by
  simp [serve, handleSettings, bind, Go.bind, emit, pure, defer, renderErr, renderJSON,
      Deferred.event, envelopes, Event.envelope, Envelope.isError, Envelope.isSuccess,
      Iface.jsonNull, World.connection]

/-- Envelopes of `handleRestart`, on every path. -/
theorem handleRestart_envelopes (w : World) (r : Request) :
    ∀ e ∈ envelopes (serve (handleRestart w r)).1, e.isError = true ∨ e.isSuccess = true := by
  cases hX : w.exec (str "gosu")
      [str "stolon", str "pg_ctl", str "-D", str "/data/postgres", str "restart"] with
  | startFailed e =>
    simp [serve, handleRestart, cmdRun, hX, bind, Go.bind, emit, pure, defer, renderErr, renderJSON,
      Deferred.event, envelopes, Event.envelope, Envelope.isError, Envelope.isSuccess,
      Iface.jsonNull, World.connection]
  | terminated st =>
    by_cases hE : st.ExitCode = 0 <;>
    simp [serve, handleRestart, cmdRun, hX, hE, ProcessState.exitCodeOf, bind, Go.bind, emit, pure, defer, renderErr, renderJSON,
      Deferred.event, envelopes, Event.envelope, Envelope.isError, Envelope.isSuccess,
      Iface.jsonNull, World.connection]

/-- Envelopes of `handleRole`, on every path, the panicking ones and the one
that ends the process included. -/
theorem handleRole_envelopes (w : World) (r : Request) :
    ∀ e ∈ envelopes (serve (handleRole w r)).1, e.isError = true ∨ e.isSuccess = true := by
  cases hD : w.decodeCheckRole r.Body with
  | error e =>
    simp [serve, handleRole, hD, bind, Go.bind, emit, pure, defer, renderErr, renderJSON,
      Deferred.event, envelopes, Event.envelope, Envelope.isError, Envelope.isSuccess,
      Iface.jsonNull, World.connection]
  | ok input =>
    cases input with
    | none =>
      simp [serve, handleRole, hD, nilDeref, bind, Go.bind, emit, pure, defer, renderErr, renderJSON,
      Deferred.event, envelopes, Event.envelope, Envelope.isError, Envelope.isSuccess,
      Iface.jsonNull, World.connection]
    | some input =>
      rcases hG : w.httpGet (roleEndpoint input.Address) with ⟨resp, err⟩
      cases resp with
      | none =>
        cases err <;>
        simp [serve, handleRole, hD, hG, nilDeref, bind, Go.bind, emit, pure, defer, renderErr, renderJSON,
      Deferred.event, envelopes, Event.envelope, Envelope.isError, Envelope.isSuccess,
      Iface.jsonNull, World.connection]
      | some resp =>
        rcases resp with ⟨code, body, rerr⟩
        cases hW : w.writeErrorReturns <;> cases err <;> cases rerr <;>
          by_cases hS : code = StatusOK <;>
        simp [serve, handleRole, hD, hG, hS, hW, nilDeref, utilWriteError, osExit, bind, Go.bind, emit, pure, defer, renderErr, renderJSON,
      Deferred.event, envelopes, Event.envelope, Envelope.isError, Envelope.isSuccess,
      Iface.jsonNull, World.connection]

/-- An error envelope or a success envelope has exactly one field populated. -/
theorem Envelope.exactlyOne_of (e : Envelope) (h : e.isError = true ∨ e.isSuccess = true) :
    ¬ (e.result.isSome = true ∧ e.error.isSome = true) ∧ e.exactlyOne = true := by
  rcases e with ⟨res, err⟩
  cases res <;> cases err <;>
    simp [Envelope.isError, Envelope.isSuccess, Envelope.exactlyOne] at h ⊢

/-- Under the rule of the list and find requests no envelope has both fields
populated. -/
theorem NilableRule.not_both {α : Type} (w : World) (envs : List Envelope)
    (wrap : Option α → Iface) (value : Conn → Except GoError (Option α))
    (h : NilableRule w envs wrap value) :
    ∀ e ∈ envs, ¬ (e.result.isSome = true ∧ e.error.isSome = true) := by
  intro e he
  cases hc : w.connection with
  | error err =>
    rw [h.1 err hc] at he
    simp at he
    subst he
    simp
  | ok pg =>
    cases hv : value pg with
    | error err =>
      rw [(h.2 pg hc).1 err hv] at he
      simp at he
      subst he
      simp
    | ok v =>
      cases v with
      | none =>
        rw [(h.2 pg hc).2.1 hv] at he
        simp at he
        subst he
        simp
      | some x =>
        rw [(h.2 pg hc).2.2 x hv] at he
        simp at he
        subst he
        simp

/-- C3, as stated, fails: when `admin.ListUsers` returns a nil list and no
error, and when `admin.FindUser` returns a nil record and no error, the one
envelope written has both `result` and `error` null. -/
theorem envelope_both_null_counterexample :
    World.calm.ListUsers { id := 1 } = .ok none
    ∧ envelopes (serve (handleListUsers World.calm Request.sample)).1
        = [{ result := none, error := none }]
    ∧ World.calm.FindUser { id := 1 } (str "ghost") = .ok none
    ∧ envelopes (serve (handleFindUser World.calm Request.sample)).1
        = [{ result := none, error := none }]
    ∧ Envelope.exactlyOne { result := none, error := none } = false :=
  ⟨rfl, by decide, rfl, by decide, by decide⟩

/-- C3, amended: for every world and every request, (1) no envelope written
by any route of the table has both `result` and `error` populated, and on
every route other than the two list and the two find routes each envelope is
an error envelope (error populated, result null) or a success envelope
(result populated, error null), so exactly one field is populated; (2) each
list and find handler writes exactly one envelope, decided by the outcome of
its collaborators: the error with no result when `getConnection` or the
delegated call fails; both fields null when the delegated call returns a nil
list or a nil record with no error; and the value as result with no error
when the call returns a non-nil list (also an empty one) or a non-nil
record. -/
theorem envelope_rule (w : World) (r : Request) :
    (∀ rt ∈ Handler, ∀ e ∈ envelopes (serve (rt.2.2 w r)).1,
        ¬ (e.result.isSome = true ∧ e.error.isSome = true)
        ∧ (rt ∉ nilableRoutes →
            e.exactlyOne = true ∧ (e.isError = true ∨ e.isSuccess = true)))
    ∧ NilableRule w (envelopes (serve (handleListUsers w r)).1) Iface.slice w.ListUsers
    ∧ NilableRule w (envelopes (serve (handleListDatabases w r)).1) Iface.slice w.ListDatabases
    ∧ NilableRule w (envelopes (serve (handleFindUser w r)).1) Iface.ptr
        (fun pg => w.FindUser pg (r.URLParam (str "name")))
    ∧ NilableRule w (envelopes (serve (handleFindDatabase w r)).1) Iface.ptr
        (fun pg => w.FindDatabase pg (r.URLParam (str "name"))) := by
  refine ⟨?_, handleListUsers_envelopes w r, handleListDatabases_envelopes w r,
    handleFindUser_envelopes w r, handleFindDatabase_envelopes w r⟩
  intro rt hrt e he
  simp only [Handler, usersRoutes, databasesRoutes, adminRoutes, List.cons_append,
    List.nil_append, List.mem_cons, List.mem_singleton, List.not_mem_nil, or_false] at hrt
  rcases hrt with rfl | rfl | rfl | rfl | rfl | rfl | rfl | rfl | rfl | rfl | rfl | rfl
  · exact ⟨NilableRule.not_both w _ _ _ (handleFindUser_envelopes w r) e he,
      fun hn => absurd (by simp [nilableRoutes]) hn⟩
  · exact ⟨NilableRule.not_both w _ _ _ (handleListUsers_envelopes w r) e he,
      fun hn => absurd (by simp [nilableRoutes]) hn⟩
  · have h := handleCreateUser_envelopes w r e he
    exact ⟨(Envelope.exactlyOne_of e h).1, fun _ => ⟨(Envelope.exactlyOne_of e h).2, h⟩⟩
  · have h := handleDeleteUser_envelopes w r e he
    exact ⟨(Envelope.exactlyOne_of e h).1, fun _ => ⟨(Envelope.exactlyOne_of e h).2, h⟩⟩
  · exact ⟨NilableRule.not_both w _ _ _ (handleListDatabases_envelopes w r) e he,
      fun hn => absurd (by simp [nilableRoutes]) hn⟩
  · exact ⟨NilableRule.not_both w _ _ _ (handleFindDatabase_envelopes w r) e he,
      fun hn => absurd (by simp [nilableRoutes]) hn⟩
  · have h := handleCreateDatabase_envelopes w r e he
    exact ⟨(Envelope.exactlyOne_of e h).1, fun _ => ⟨(Envelope.exactlyOne_of e h).2, h⟩⟩
  · have h := handleDeleteDatabase_envelopes w r e he
    exact ⟨(Envelope.exactlyOne_of e h).1, fun _ => ⟨(Envelope.exactlyOne_of e h).2, h⟩⟩
  · have h := handleFailover_envelopes w r e he
    exact ⟨(Envelope.exactlyOne_of e h).1, fun _ => ⟨(Envelope.exactlyOne_of e h).2, h⟩⟩
  · have h := handleRestart_envelopes w r e he
    exact ⟨(Envelope.exactlyOne_of e h).1, fun _ => ⟨(Envelope.exactlyOne_of e h).2, h⟩⟩
  · have h := handleSettings_envelopes w r e he
    exact ⟨(Envelope.exactlyOne_of e h).1, fun _ => ⟨(Envelope.exactlyOne_of e h).2, h⟩⟩
  · have h := handleRole_envelopes w r e he
    exact ⟨(Envelope.exactlyOne_of e h).1, fun _ => ⟨(Envelope.exactlyOne_of e h).2, h⟩⟩

/-- Witness of C3 amended: `GET /users/list` when `admin.ListUsers` returns a
nil list (both fields null), when it returns an empty list that is not nil
(result populated), and `DELETE /users/delete/ghost` when the delete fails
(error populated). -/
theorem envelope_rule_witness :
    (World.calm.connection = .ok { id := 1 }
      ∧ World.calm.ListUsers { id := 1 } = .ok none
      ∧ World.emptyLists.connection = .ok { id := 1 }
      ∧ World.emptyLists.ListUsers { id := 1 } = .ok (some [])
      ∧ (Method.DELETE, "/users/delete/{name}", handleDeleteUser) ∈ Handler)
    ∧ envelopes (serve (handleListUsers World.calm Request.sample)).1
        = [{ result := none, error := none }]
    ∧ envelopes (serve (handleListUsers World.emptyLists Request.sample)).1
        = [{ result := some (Iface.slice (some [])), error := none }]
    ∧ ∀ e ∈ envelopes (serve (handleDeleteUser World.missingName Request.sample)).1,
        ¬ (e.result.isSome = true ∧ e.error.isSome = true) :=
  ⟨⟨rfl, rfl, rfl, rfl, by simp [Handler, usersRoutes]⟩,
   ((envelope_rule World.calm Request.sample).2.1.2 { id := 1 } rfl).2.1 rfl,
   ((envelope_rule World.emptyLists Request.sample).2.1.2 { id := 1 } rfl).2.2 [] rfl,
   fun e he =>
     ((envelope_rule World.missingName Request.sample).1
        (Method.DELETE, "/users/delete/{name}", handleDeleteUser)
        (by simp [Handler, usersRoutes]) e he).1⟩

/-! ## Release witness and the delete handlers -/

/-- Witness of C2: the route `POST /users/create` in a world where
`GrantAccess` fails; the connection is released once, last. -/
theorem release_exactly_once_witness :
    (Method.POST, "/users/create", handleCreateUser) ∈ usersRoutes ++ databasesRoutes
    ∧ List.filter Event.isRelease (serve (handleCreateUser World.grantFails Request.sample)).1
        = [Event.pgClose { id := 1 }]
    ∧ (serve (handleCreateUser World.grantFails Request.sample)).2 = Exit.returned :=
  ⟨by simp [usersRoutes],
   (release_exactly_once (Method.POST, "/users/create", handleCreateUser)
      (by simp [usersRoutes]) World.grantFails Request.sample).1.2.1,
   (release_exactly_once (Method.POST, "/users/create", handleCreateUser)
      (by simp [usersRoutes]) World.grantFails Request.sample).2⟩

/-- C10: with a connection `pg` acquired, `handleDeleteUser` and
`handleDeleteDatabase` each make a single delegated call, the delete of the
name in the URL, and write a single response: the result `true` when that call
returned no error, and otherwise that call's error unchanged, in an envelope
without a result. -/
theorem delete_surfaces_error (w : World) (r : Request) (pg : Conn)
    (hAcq : w.acquired = some pg) :
    (adminCalls (serve (handleDeleteUser w r)).1
        = [Event.DeleteUser pg (r.URLParam (str "name"))]
      ∧ responses (serve (handleDeleteUser w r)).1
        = [planResponse (w.DeleteUser pg (r.URLParam (str "name")))]
      ∧ ∀ err, w.DeleteUser pg (r.URLParam (str "name")) = some err →
          envelopes (serve (handleDeleteUser w r)).1 = [{ result := none, error := some err.msg }])
    ∧ (adminCalls (serve (handleDeleteDatabase w r)).1
        = [Event.DeleteDatabase pg (r.URLParam (str "name"))]
      ∧ responses (serve (handleDeleteDatabase w r)).1
        = [planResponse (w.DeleteDatabase pg (r.URLParam (str "name")))]
      ∧ ∀ err, w.DeleteDatabase pg (r.URLParam (str "name")) = some err →
          envelopes (serve (handleDeleteDatabase w r)).1
            = [{ result := none, error := some err.msg }]) := by
  unfold World.acquired at hAcq
  cases hN : w.NewNode with
  | error e => simp [hN] at hAcq
  | ok node =>
    cases hC : w.NewProxyConnection node with
    | error e => simp [hN, hC] at hAcq
    | ok pg1 =>
      simp [hN, hC] at hAcq
      subst hAcq
      constructor
      · cases hA : w.DeleteUser pg1 (r.URLParam (str "name")) <;>
        simp [serve, handleDeleteUser, getConnection, hN, hC, hA, bind, Go.bind, emit, pure,
          defer, renderErr, renderJSON, adminCalls, responses, envelopes, Event.isAdmin,
          Event.isRender, Event.envelope, planResponse, Deferred.event]
      · cases hA : w.DeleteDatabase pg1 (r.URLParam (str "name")) <;>
        simp [serve, handleDeleteDatabase, getConnection, hN, hC, hA, bind, Go.bind, emit, pure,
          defer, renderErr, renderJSON, adminCalls, responses, envelopes, Event.isAdmin,
          Event.isRender, Event.envelope, planResponse, Deferred.event]

/-- Witness of C10: deleting the name `ghost`, which does not exist. -/
theorem delete_surfaces_error_witness :
    World.missingName.acquired = some { id := 1 }
    ∧ envelopes (serve (handleDeleteUser World.missingName Request.sample)).1
        = [{ result := none, error := some (str "role does not exist") }]
    ∧ envelopes (serve (handleDeleteDatabase World.missingName Request.sample)).1
        = [{ result := none, error := some (str "database does not exist") }] :=
  ⟨rfl,
   (delete_surfaces_error World.missingName Request.sample { id := 1 } rfl).1.2.2 _ rfl,
   (delete_surfaces_error World.missingName Request.sample { id := 1 } rfl).2.2.2 _ rfl⟩

/-! ## `strings.Trim` -/

/-- The left trim removes a run of `c` and leaves a string not starting with `c`. -/
theorem trimLeftByte_spec (s : GoString) (c : Nat) :
    ∃ n, s = List.replicate n c ++ trimLeftByte s c ∧ (trimLeftByte s c).head? ≠ some c := by
  induction s with
  | nil => exact ⟨0, by simp [trimLeftByte]⟩
  | cons b t ih =>
    by_cases hb : b = c
    · obtain ⟨n, h1, h2⟩ := ih
      refine ⟨n + 1, ?_, ?_⟩
      · have : trimLeftByte (b :: t) c = trimLeftByte t c := by
          simp [trimLeftByte, List.dropWhile, hb]
        rw [this, List.replicate_succ, List.cons_append, ← h1, hb]
      · have : trimLeftByte (b :: t) c = trimLeftByte t c := by
          simp [trimLeftByte, List.dropWhile, hb]
        rw [this]; exact h2
    · have hbc : (b == c) = false := by simpa using hb
      refine ⟨0, ?_, ?_⟩
      · simp [trimLeftByte, List.dropWhile, hbc]
      · simp [trimLeftByte, List.dropWhile, hbc, hb]

/-- The right trim is the left trim of the reversed string. -/
theorem trimRightByte_eq (s : GoString) (c : Nat) :
    trimRightByte s c = (trimLeftByte s.reverse c).reverse := rfl

/-- The right trim removes a run of `c` and leaves a string not ending with `c`. -/
theorem trimRightByte_spec (s : GoString) (c : Nat) :
    ∃ n, s = trimRightByte s c ++ List.replicate n c ∧ (trimRightByte s c).getLast? ≠ some c := by
  obtain ⟨n, h1, h2⟩ := trimLeftByte_spec s.reverse c
  refine ⟨n, ?_, ?_⟩
  · have h := congrArg List.reverse h1
    rw [List.reverse_reverse, List.reverse_append, List.reverse_replicate] at h
    rw [trimRightByte_eq]; exact h
  · rw [trimRightByte_eq, List.getLast?_reverse]; exact h2

/-- A left trim that leaves something leaves the last byte in place. -/
theorem trimLeftByte_getLast? (s : GoString) (c : Nat) :
    trimLeftByte s c = [] ∨ (trimLeftByte s c).getLast? = s.getLast? := by
  induction s with
  | nil => exact Or.inl rfl
  | cons b t ih =>
    by_cases hb : b = c
    · have : trimLeftByte (b :: t) c = trimLeftByte t c := by
        simp [trimLeftByte, List.dropWhile, hb]
      rw [this]
      cases t with
      | nil => exact Or.inl rfl
      | cons x t2 =>
        rcases ih with h | h
        · exact Or.inl h
        · right
          rw [h]; simp [List.getLast?_cons_cons]
    · right
      have hbc : (b == c) = false := by simpa using hb
      simp [trimLeftByte, List.dropWhile, hbc]

/-- The function `strings.Trim` with a one-byte cutset removes a run of `c` at
each end and leaves a string that neither starts nor ends with `c`. -/
theorem Trim_spec (s : GoString) (c : Nat) :
    ∃ a d, s = List.replicate a c ++ Trim s c ++ List.replicate d c
      ∧ (Trim s c).head? ≠ some c ∧ (Trim s c).getLast? ≠ some c := by
  obtain ⟨d, h1, h2⟩ := trimRightByte_spec s c
  obtain ⟨a, h3, h4⟩ := trimLeftByte_spec (trimRightByte s c) c
  refine ⟨a, d, ?_, h4, ?_⟩
  · unfold Trim
    rw [← h3]; exact h1
  · unfold Trim
    rcases trimLeftByte_getLast? (trimRightByte s c) c with h | h
    · rw [h]; simp
    · rw [h]; exact h2

/-- A string without the byte `c` is left alone by the left trim. -/
theorem trimLeftByte_of_not_mem (s : GoString) (c : Nat) (h : c ∉ s) : trimLeftByte s c = s := by
  cases s with
  | nil => rfl
  | cons b t =>
    have hb : b ≠ c := by
      intro hb; apply h; simp [hb]
    have hbc : (b == c) = false := by simpa using hb
    simp [trimLeftByte, List.dropWhile, hbc]

/-- A string without the byte `c` is left alone by the trim. -/
theorem Trim_of_not_mem (s : GoString) (c : Nat) (h : c ∉ s) : Trim s c = s := by
  have h1 : trimRightByte s c = s := by
    rw [trimRightByte_eq, trimLeftByte_of_not_mem _ _ (by simpa using h), List.reverse_reverse]
  unfold Trim
  rw [h1, trimLeftByte_of_not_mem _ _ h]

/-- A string without the byte `c`, wrapped in one `c` on each side, is
unwrapped by the trim. -/
theorem Trim_wrap (t : GoString) (c : Nat) (h : c ∉ t) : Trim (c :: (t ++ [c])) c = t := by
  have h2 : trimLeftByte t c = t := trimLeftByte_of_not_mem t c h
  have h1 : trimRightByte (c :: (t ++ [c])) c = if t = [] then [] else c :: t := by
    unfold trimRightByte
    rw [← List.cons_append, List.rdropWhile_concat_pos _ _ _ (by simp)]
    rcases List.eq_nil_or_concat t with ht | ⟨t1, x, ht⟩
    · subst ht; simp [List.rdropWhile_singleton]
    · rw [List.concat_eq_append] at ht
      subst ht
      have hx : x ≠ c := by
        intro hx; apply h; simp [hx]
      rw [← List.cons_append, List.rdropWhile_concat_neg _ _ _ (by simpa using hx)]
      simp
  unfold Trim
  rw [h1]
  split
  · next ht => subst ht; rfl
  · have : trimLeftByte (c :: t) c = trimLeftByte t c := by
      simp [trimLeftByte, List.dropWhile]
    rw [this, h2]

/-! ## The role probe -/

/-- The calls of `handleRole` when the peer answers `200` and the body is read
without error: the response carries the normalized body. -/
theorem handleRole_ok (w : World) (r : Request) (input : checkRoleRequest) (body : GoString)
    (hD : w.decodeCheckRole r.Body = .ok (some input))
    (hG : w.httpGet (roleEndpoint input.Address)
      = (some { StatusCode := StatusOK, ReadAll := (body, none) }, none)) :
    serve (handleRole w r)
      = ([Event.httpGet (roleEndpoint input.Address), Event.readAll,
          Event.renderJSON { Result := Iface.string (normalizeRole body) } StatusOK],
         Exit.returned) := by
  simp [serve, handleRole, hD, hG, bind, Go.bind, emit, pure, renderJSON, Deferred.event]

/-- The role is the body trimmed of newlines and then of double quotes. -/
theorem normalizeRole_eq (body : GoString) :
    normalizeRole body = Trim (Trim body newline) quote := rfl

/-- The first trim of `handleRole` on a quoted token followed by a newline. -/
theorem Trim_newline_quoted (t : GoString) :
    Trim (quote :: (t ++ [quote, newline])) newline = quote :: (t ++ [quote]) := by
  have h1 : trimRightByte (quote :: (t ++ [quote, newline])) newline = quote :: (t ++ [quote]) := by
    unfold trimRightByte
    have e1 : quote :: (t ++ [quote, newline]) = (quote :: (t ++ [quote])) ++ [newline] := by simp
    rw [e1, List.rdropWhile_concat_pos _ _ _ (by simp)]
    have e2 : quote :: (t ++ [quote]) = (quote :: t) ++ [quote] := by simp
    rw [e2, List.rdropWhile_concat_neg _ _ _ (by decide)]
  unfold Trim
  rw [h1]
  have hqn : (quote == newline) = false := by decide
  simp [trimLeftByte, List.dropWhile, hqn]

/-- C4: for every token `t` without a double quote and without a newline, the
body made of a double quote, `t`, a double quote and a newline normalizes to
`t`, and the body `t` normalizes to `t`; and `handleRole`, on a `200` reply with
either body, answers with the result `t`. -/
theorem role_normalization (t : GoString) (hq : quote ∉ t) (hn : newline ∉ t) :
    normalizeRole (quote :: (t ++ [quote, newline])) = t
    ∧ normalizeRole t = t
    ∧ ∀ (w : World) (r : Request) (input : checkRoleRequest) (body : GoString),
        w.decodeCheckRole r.Body = .ok (some input) →
        w.httpGet (roleEndpoint input.Address)
          = (some { StatusCode := StatusOK, ReadAll := (body, none) }, none) →
        body = quote :: (t ++ [quote, newline]) ∨ body = t →
        responses (serve (handleRole w r)).1
          = [Event.renderJSON { Result := Iface.string t } StatusOK] := by
  have h1 : normalizeRole (quote :: (t ++ [quote, newline])) = t := by
    rw [normalizeRole_eq, Trim_newline_quoted, Trim_wrap t quote hq]
  have h2 : normalizeRole t = t := by
    rw [normalizeRole_eq, Trim_of_not_mem t newline hn, Trim_of_not_mem t quote hq]
  refine ⟨h1, h2, ?_⟩
  intro w r input body hD hG hb
  rw [handleRole_ok w r input body hD hG]
  rcases hb with hb | hb <;> subst hb
  · simp [responses, Event.isRender, h1]
  · simp [responses, Event.isRender, h2]

/-- Witness of C4: the token `primary`, and the calm world, whose peer answers
with `primary` in double quotes followed by a newline. -/
theorem role_normalization_witness :
    (quote ∉ str "primary" ∧ newline ∉ str "primary")
    ∧ normalizeRole (quote :: (str "primary" ++ [quote, newline])) = str "primary"
    ∧ normalizeRole (str "primary") = str "primary"
    ∧ responses (serve (handleRole World.calm Request.sample)).1
        = [Event.renderJSON { Result := Iface.string (str "primary") } StatusOK] :=
  ⟨⟨by decide, by decide⟩,
   (role_normalization (str "primary") (by decide) (by decide)).1,
   (role_normalization (str "primary") (by decide) (by decide)).2.1,
   (role_normalization (str "primary") (by decide) (by decide)).2.2 World.calm Request.sample
     { Address := str "fdaa::3" } (quote :: (str "primary" ++ [quote, newline])) rfl rfl
     (Or.inl rfl)⟩

/-- C5, as stated, fails: on a `200` reply whose body is a newline followed by
`replica`, `handleRole` answers `replica`, without the leading newline, which
the one-layer strip keeps; two layers of quotes are both removed; and two
trailing newlines are both removed. -/
theorem one_layer_counterexample :
    responses (serve (handleRole World.leadingNewline Request.sample)).1
        = [Event.renderJSON { Result := Iface.string (str "replica") } StatusOK]
    ∧ stripOneLayer (newline :: str "replica") = newline :: str "replica"
    ∧ normalizeRole (newline :: str "replica") ≠ stripOneLayer (newline :: str "replica")
    ∧ normalizeRole ([quote, quote] ++ str "x" ++ [quote, quote]) = str "x"
    ∧ stripOneLayer ([quote, quote] ++ str "x" ++ [quote, quote]) = quote :: str "x" ++ [quote]
    ∧ normalizeRole (str "a" ++ [newline, newline]) = str "a"
    ∧ stripOneLayer (str "a" ++ [newline, newline]) = str "a" ++ [newline] := by
  decide

/-- C5, amended: on a `200` reply whose body is read without error, the role
`handleRole` answers with is the body without all its leading and trailing
newlines and then without all the leading and trailing double quotes of what
is left, and nothing else: the body is a run of newlines, a run of quotes, the
role, a run of quotes and a run of newlines, where the role neither starts nor
ends with a quote and the part between the newline runs neither starts nor
ends with a newline. -/
theorem role_strips_all_layers (w : World) (r : Request) (input : checkRoleRequest)
    (body : GoString)
    (hD : w.decodeCheckRole r.Body = .ok (some input))
    (hG : w.httpGet (roleEndpoint input.Address)
      = (some { StatusCode := StatusOK, ReadAll := (body, none) }, none)) :
    serve (handleRole w r)
      = ([Event.httpGet (roleEndpoint input.Address), Event.readAll,
          Event.renderJSON { Result := Iface.string (normalizeRole body) } StatusOK],
         Exit.returned)
    ∧ ∃ a b c d,
        body = List.replicate a newline
          ++ (List.replicate b quote ++ normalizeRole body ++ List.replicate c quote)
          ++ List.replicate d newline
        ∧ (normalizeRole body).head? ≠ some quote
        ∧ (normalizeRole body).getLast? ≠ some quote
        ∧ (List.replicate b quote ++ normalizeRole body ++ List.replicate c quote).head?
            ≠ some newline
        ∧ (List.replicate b quote ++ normalizeRole body ++ List.replicate c quote).getLast?
            ≠ some newline := by
  refine ⟨handleRole_ok w r input body hD hG, ?_⟩
  obtain ⟨a, d, h1, h2, h3⟩ := Trim_spec body newline
  obtain ⟨b, c, h4, h5, h6⟩ := Trim_spec (Trim body newline) quote
  have hr := normalizeRole_eq body
  refine ⟨a, b, c, d, ?_, ?_, ?_, ?_, ?_⟩
  · rw [hr, ← h4]; exact h1
  · rw [hr]; exact h5
  · rw [hr]; exact h6
  · rw [hr, ← h4]; exact h2
  · rw [hr, ← h4]; exact h3

/-- Witness of C5 amended: the calm world, whose peer answers with `primary`
in double quotes followed by a newline. -/
theorem role_strips_all_layers_witness :
    (World.calm.decodeCheckRole Request.sample.Body = .ok (some { Address := str "fdaa::3" })
      ∧ World.calm.httpGet (roleEndpoint (str "fdaa::3"))
          = (some { StatusCode := StatusOK,
                    ReadAll := (quote :: (str "primary" ++ [quote, newline]), none) }, none))
    ∧ serve (handleRole World.calm Request.sample)
        = ([Event.httpGet (roleEndpoint (str "fdaa::3")), Event.readAll,
            Event.renderJSON
              { Result := Iface.string
                  (normalizeRole (quote :: (str "primary" ++ [quote, newline]))) } StatusOK],
           Exit.returned) :=
  ⟨⟨rfl, rfl⟩,
   (role_strips_all_layers World.calm Request.sample { Address := str "fdaa::3" }
      (quote :: (str "primary" ++ [quote, newline])) rfl rfl).1⟩

/-- C6, on the code: when `http.Get` fails at transport level (nil response,
non-nil error) `handleRole` writes the error and then, instead of returning,
reads `resp.StatusCode` of the nil response: the request ends in a panic. -/
theorem transport_failure_panics :
    World.peerDown.httpGet sampleEndpoint = (none, some { msg := str "connection refused" })
    ∧ serve (handleRole World.peerDown Request.sample)
        = ([Event.httpGet sampleEndpoint,
            Event.renderErr { msg := str "connection refused" }],
           Exit.panicked) := by
  decide

/-- C7: when `http.Get` hands `handleRole` a response whose status code is not
`200`, the handler returns normally without reading the body and without
writing any success response; every envelope it writes is an error envelope,
the last call is the `render.Err` of the `role check failed` error, and when
`http.Get` reported no error that is the only response. -/
theorem non_ok_status_is_error (w : World) (r : Request) (input : checkRoleRequest)
    (resp : HttpResponse) (err : Option GoError)
    (hD : w.decodeCheckRole r.Body = .ok (some input))
    (hG : w.httpGet (roleEndpoint input.Address) = (some resp, err))
    (hS : resp.StatusCode ≠ StatusOK) :
    (serve (handleRole w r)).2 = Exit.returned
    ∧ Event.readAll ∉ (serve (handleRole w r)).1
    ∧ (∀ res status, Event.renderJSON res status ∉ (serve (handleRole w r)).1)
    ∧ (∀ e ∈ envelopes (serve (handleRole w r)).1, e.isError = true)
    ∧ (serve (handleRole w r)).1.getLast?
        = some (Event.renderErr (ErrorfW (str "role check failed ") err))
    ∧ (err = none →
        (serve (handleRole w r)).1
          = [Event.httpGet (roleEndpoint input.Address),
             Event.renderErr { msg := str "role check failed " ++ str "%!w(<nil>)" }]) := by
  cases err <;>
  simp [serve, handleRole, hD, hG, hS, bind, Go.bind, emit, pure, renderErr, renderJSON,
    Deferred.event, envelopes, Event.envelope, Envelope.isError, ErrorfW]

/-- Witness of C7: a peer that answers `503`. -/
theorem non_ok_status_is_error_witness :
    (World.peerUnavailable.decodeCheckRole Request.sample.Body
          = .ok (some { Address := str "fdaa::3" })
      ∧ World.peerUnavailable.httpGet (roleEndpoint (str "fdaa::3"))
          = (some { StatusCode := 503, ReadAll := ([], none) }, none)
      ∧ (503 : Nat) ≠ StatusOK)
    ∧ (serve (handleRole World.peerUnavailable Request.sample)).1
        = [Event.httpGet (roleEndpoint (str "fdaa::3")),
           Event.renderErr { msg := str "role check failed " ++ str "%!w(<nil>)" }] :=
  ⟨⟨rfl, rfl, by decide⟩,
   (non_ok_status_is_error World.peerUnavailable Request.sample { Address := str "fdaa::3" }
      { StatusCode := 503, ReadAll := ([], none) } none rfl rfl (by decide)).2.2.2.2.2 rfl⟩

/-- C8, on the code: when the peer answers `200` and reading the body fails
after the bytes of a quote and `prim`, `handleRole` calls `util.WriteError`,
which has no access to the response, and writes no error envelope: if
`util.WriteError` returns, the handler goes on to answer with the success
envelope built from the partial body (`prim`); if it ends the process, nothing
is written at all. -/
theorem read_failure_not_surfaced :
    serve (handleRole World.readFails Request.sample)
        = ([Event.httpGet sampleEndpoint, Event.readAll,
            Event.utilWriteError { msg := str "unexpected EOF" },
            Event.renderJSON { Result := Iface.string (str "prim") } StatusOK],
           Exit.returned)
    ∧ envelopes (serve (handleRole World.readFails Request.sample)).1
        = [{ result := some (Iface.string (str "prim")), error := none }]
    ∧ serve (handleRole World.readFailsExit Request.sample)
        = ([Event.httpGet sampleEndpoint, Event.readAll,
            Event.utilWriteError { msg := str "unexpected EOF" }],
           Exit.exited)
    ∧ envelopes (serve (handleRole World.readFailsExit Request.sample)).1 = [] := by
  decide

/-! ## The restart trigger -/

/-- C9: `handleRestart` runs the fixed command `gosu stolon pg_ctl -D
/data/postgres restart`, whatever the request; when that run terminates with
exit code `0` the response is the success envelope with the result `Restart
completed successfully`; when it terminates with any other exit code the only
response is an error envelope whose message is the description of the
terminal state of the process, and no success result is written. -/
theorem restart_classified_by_exit (w : World) (r : Request) :
    (serve (handleRestart w r)).1.head? = some (Event.cmdRun (str "gosu") restartArgs)
    ∧ (serve (handleRestart w r)).1.countP Event.isCmdRun = 1
    ∧ ∀ st, w.exec (str "gosu") restartArgs = ExecOutcome.terminated st →
        (st.ExitCode = 0 →
          serve (handleRestart w r)
            = ([Event.cmdRun (str "gosu") restartArgs,
                Event.renderJSON
                  { Result := Iface.string (str "Restart completed successfully") } StatusOK],
               Exit.returned))
        ∧ (st.ExitCode ≠ 0 →
          serve (handleRestart w r)
            = ([Event.cmdRun (str "gosu") restartArgs,
                Event.renderErr { msg := st.String }],
               Exit.returned)
          ∧ envelopes (serve (handleRestart w r)).1
            = [{ result := none, error := some st.String }]) := by
  cases hX : w.exec (str "gosu")
      [str "stolon", str "pg_ctl", str "-D", str "/data/postgres", str "restart"] with
  | startFailed e =>
    simp [serve, handleRestart, cmdRun, hX, restartArgs, bind, Go.bind, emit, pure, renderErr,
      renderJSON, Deferred.event, Event.isCmdRun]
  | terminated st =>
    by_cases hE : st.ExitCode = 0 <;>
    simp [serve, handleRestart, cmdRun, hX, hE, restartArgs, ProcessState.exitCodeOf, bind,
      Go.bind, emit, pure, renderErr, renderJSON, Deferred.event, envelopes, Event.envelope,
      Event.isCmdRun]

/-- Witness of C9: a restart command that exits with code `1`. -/
theorem restart_classified_by_exit_witness :
    World.restartFails.exec (str "gosu") restartArgs
        = ExecOutcome.terminated { ExitCode := 1, String := str "exit status 1" }
    ∧ envelopes (serve (handleRestart World.restartFails Request.sample)).1
        = [{ result := none, error := some (str "exit status 1") }] :=
  ⟨rfl,
   ((restart_classified_by_exit World.restartFails Request.sample).2.2
      { ExitCode := 1, String := str "exit status 1" } rfl).2 (by decide) |>.2⟩

end Commands
